import Mathlib

/-
Verification development for the soprano repository (NMR spectrum calculator
and structure interpolation generator).

Shallow embedding conventions:
- Python floats are modelled as exact rationals; decimal literals in the
  source are taken at their decimal value, and np.pi is taken at the exact
  value of the IEEE-754 double nearest pi.
- The isotope data table (soprano/data/nmrdata.json, not part of the two
  reviewed source files) is modelled as an abstract association list
  parameter, mirroring the dictionary shape the code reads from it.
- np.linalg.eigh and the powder helpers (gen_pwd_ang, pwd_avg, from
  soprano/calculate/nmr/powder.py, absent from the reviewed source) as well
  as soprano.utils.minimum_periodic are treated as oracle function
  parameters: the theorems hold for every choice of these functions.
- Python exceptions are modelled with Except String; a raise that happens
  before any attribute assignment leaves the explicit state unchanged.
-/

set_option linter.unusedVariables false

namespace Soprano

/-- A 3-vector of rationals (one row of an atomic-position array, or one
direction). -/
structure Vec3 where
  x : ℚ
  y : ℚ
  z : ℚ
deriving DecidableEq, Repr

instance : Inhabited Vec3 := ⟨⟨0, 0, 0⟩⟩

/-- A 3x3 matrix of rationals (an ms or efg tensor, or a unit cell). -/
structure Mat3 where
  r0 : Vec3
  r1 : Vec3
  r2 : Vec3
deriving DecidableEq, Repr

instance : Inhabited Mat3 := ⟨⟨default, default, default⟩⟩

def Vec3.add (a b : Vec3) : Vec3 := ⟨a.x + b.x, a.y + b.y, a.z + b.z⟩

def Vec3.sub (a b : Vec3) : Vec3 := ⟨a.x - b.x, a.y - b.y, a.z - b.z⟩

def Vec3.dot (a b : Vec3) : ℚ := a.x * b.x + a.y * b.y + a.z * b.z

def Mat3.mulVec (t : Mat3) (v : Vec3) : Vec3 :=
  ⟨t.r0.dot v, t.r1.dot v, t.r2.dot v⟩

def Mat3.sub (a b : Mat3) : Mat3 :=
  ⟨a.r0.sub b.r0, a.r1.sub b.r1, a.r2.sub b.r2⟩

/-- np.identity(3) scaled by a rational (the isotropic tensor subtracted to
form the traceless ms tensor). -/
def Mat3.scaleId (s : ℚ) : Mat3 :=
  ⟨⟨s, 0, 0⟩, ⟨0, s, 0⟩, ⟨0, 0, s⟩⟩

/- Physical constants, as the exact rational values of the scipy.constants
floats used by the source (CODATA 2018). np.pi is the IEEE double nearest
pi, which is exactly 884279719003555 / 2^48. -/

def pi_f : ℚ := 884279719003555 / 281474976710656

def m_e : ℚ := 9.1093837015e-31

def c_light : ℚ := 299792458

def alpha_f : ℚ := 7.2973525693e-3

def hbar_f : ℚ := 1.054571817e-34

/-- Conversion factor Vzz*Q -> frequency (Hz), from nmr.py:
1.0e-31*(cnst.m_e**3*cnst.c**4*cnst.alpha**4)/(cnst.hbar**3*2*np.pi). -/
def VzzQ_Hz : ℚ :=
  1.0e-31 * (m_e ^ 3 * c_light ^ 4 * alpha_f ^ 4) / (hbar_f ^ 3 * 2 * pi_f)

/- The isotope reference data table (_nmr_data).  Per element the JSON holds
the keys "iso", "Q_iso" (possibly absent) and one entry per mass number. -/

/-- Data for one isotope of an element: entries "gamma", "I", "Q" of the
per-mass-number record in nmrdata.json. -/
structure IsoRecord where
  gamma : ℚ
  I : ℚ
  Q : ℚ
deriving DecidableEq, Repr

/-- Data for one element of the table: default isotope "iso", optional
default quadrupolar isotope "Q_iso" (stringified as the source does with
str), and the mass-number records. -/
structure ElementData where
  iso : String
  Q_iso : Option String
  recs : List (String × IsoRecord)
deriving DecidableEq, Repr

/-- The _nmr_data table: element symbol to element data. -/
abbrev NMRTable := List (String × ElementData)

/-- Membership test for a key of the per-element Python dict, whose keys are
"iso", "Q_iso" (when present) and the mass-number strings. -/
def hasKey (d : ElementData) (k : String) : Bool :=
  k == "iso" || (k == "Q_iso" && d.Q_iso.isSome) || (d.recs.lookup k).isSome

/-- Lookup of _nmr_data[el][iso] for a mass-number key. -/
def getRec (table : NMRTable) (el iso : String) : Option IsoRecord :=
  (table.lookup el).bind (fun d => d.recs.lookup iso)

/- Model of re.findall('([0-9]*)([A-Za-z]+)', sym): scan left to right; at
each position take a maximal digit run then a maximal letter run; a match
needs at least one letter, else the scanner advances one character.
Backtracking inside [0-9]* can never rescue a failed match here because a
digit is not a letter, so this scan is equivalent to the regex engine. -/

/-- One scanning pass with fuel (fuel = input length suffices on the
concrete inputs we evaluate). -/
def findallAux : ℕ → List Char → List (String × String)
  | 0, _ => []
  | _, [] => []
  | fuel + 1, c :: rest =>
      let p1 := (c :: rest).span Char.isDigit
      let p2 := p1.2.span Char.isAlpha
      if p2.1.isEmpty then findallAux fuel rest
      else (String.mk p1.1, String.mk p2.1) :: findallAux fuel p2.2

/-- re.findall('([0-9]*)([A-Za-z]+)', sym) as a list of (digits, letters)
pairs. -/
def reFindall (s : String) : List (String × String) :=
  findallAux s.length s.toList

/-- The _el_iso utility: split an isotope symbol into element and isotope
mass-number string, validated against the data table. -/
def el_iso (table : NMRTable) (sym : String) : Except String (String × String) :=
  match reFindall sym with
  | [(digits, letters)] =>
    match table.lookup letters with
    | none => .error "Invalid element symbol"
    | some d =>
      let iso := if digits = "" then d.iso else digits
      if hasKey d iso then .ok (letters, iso)
      else .error ("No data on isotope " ++ iso ++ " for element " ++ letters)
  | _ => .error "Invalid isotope symbol"

/- NMRFlags: namedtuple of bit flags for spectrum effects. -/

/-- The NMRFlags namedtuple shape. -/
structure NMRFlagsT where
  CS_ISO : ℕ
  CS_ORIENT : ℕ
  CS : ℕ
  Q_1_ORIENT : ℕ
  Q_2_SHIFT : ℕ
  Q_2_ORIENT : ℕ
  Q_2 : ℕ
  Q : ℕ
  ALL : ℕ
deriving DecidableEq, Repr

/-- NMRFlags = NMRFlags(1, 2, 3, 4, 8, 16, 24, 28, 31). -/
def NMRFlags : NMRFlagsT := ⟨1, 2, 3, 4, 8, 16, 24, 28, 31⟩

/- NMRCalculator state.  The orientation set is Optional because accessing
self._orients before any orientation setter ran raises AttributeError; the
sample arrays "ms" / "efg" are Optional per-atom tensor arrays. -/

/-- Orientation set: directions, weights, triangulation (the triple stored
in self._orients). -/
structure Orients where
  dirs : List Vec3
  weights : List ℚ
  tri : List (ℕ × ℕ × ℕ)
deriving DecidableEq, Repr

/-- Explicit state of an NMRCalculator instance. elems is derived once from
the sample's chemical symbols (one entry per atom), so the sample atom count
is elems.length. -/
structure CalcState where
  elems : List String
  isos : List String
  B : ℚ
  references : List (String × List (String × ℚ))
  orients : Option Orients
  sample_ms : Option (List Mat3)
  sample_efg : Option (List Mat3)
deriving DecidableEq, Repr

/-- One entry of the list passed to set_isotopes: an integer, None, or a
string (the marker string "Q" is just a string entry). -/
inductive IsoIn where
  | num (n : ℕ)
  | noneI
  | sym (s : String)
deriving DecidableEq, Repr

/-- str(iso) for an entry of the isotopes list. -/
def pyStr : IsoIn → String
  | .num n => toString n
  | .noneI => "None"
  | .sym s => s

/-- Test re.match('[0-9]+', s) is not None: s starts with a digit. -/
def startsDigit (s : String) : Bool :=
  match s.toList with
  | [] => false
  | c :: _ => c.isDigit

/-- Resolution of one entry of the isotopes list for an atom of element
elem, following the branch order of set_isotopes: the digit-prefix test on
str(iso) comes first (note it then uses the WHOLE stringified entry as the
isotope key), then the None test, then the comparison with 'Q', then the
_el_iso parse with the element-match check.  A dictionary access
_nmr_data[elem] for an unknown element is a KeyError. -/
def resolveIso (table : NMRTable) (elem : String) (iso : IsoIn) :
    Except String String :=
  let s := pyStr iso
  if startsDigit s then
    match table.lookup elem with
    | none => .error ("KeyError: " ++ elem)
    | some d =>
      if hasKey d s then .ok s
      else .error ("Invalid isotope " ++ s ++ " for element " ++ elem)
  else if iso = IsoIn.noneI then
    match table.lookup elem with
    | none => .error ("KeyError: " ++ elem)
    | some d => .ok d.iso
  else if s = "Q" then
    match table.lookup elem with
    | none => .error ("KeyError: " ++ elem)
    | some d =>
      match d.Q_iso with
      | none => .error ("KeyError: Q_iso for " ++ elem)
      | some q => .ok q
  else
    match el_iso table s with
    | .error e => .error e
    | .ok (el, nm) =>
      if el ≠ elem then
        .error ("Invalid element in isotope array - " ++ el ++
                " in place of " ++ elem)
      else .ok nm

/-- The iso_clean accumulation loop of set_isotopes: resolve each entry
against the element of the atom at the same index, stopping at the first
failure. -/
def cleanIsos (table : NMRTable) : List String → List IsoIn →
    Except String (List String)
  | e :: es, i :: is' =>
    match resolveIso table e i with
    | .error err => .error err
    | .ok nm =>
      match cleanIsos table es is' with
      | .error err => .error err
      | .ok rest => .ok (nm :: rest)
  | _, _ => .ok []

/-- set_isotopes as a state transformer: the returned state is the state
after the call, paired with the raised error message when the call raised.
The source assigns self._isos only on its very last line, after the whole
iso_clean list is built, so a raise leaves the stored assignment exactly as
it was. -/
def setIsotopesRun (table : NMRTable) (s : CalcState) (isotopes : List IsoIn) :
    CalcState × Option String :=
  if isotopes.length ≠ s.elems.length then
    (s, some "isotopes array should be as long as the atoms in sample")
  else
    match cleanIsos table s.elems isotopes with
    | .error e => (s, some e)
    | .ok clean => ({ s with isos := clean }, none)

/-- int(x) for a stored isotope label (stored labels are digit strings):
fold the decimal digits, as Python's int() does on them. -/
def pyIntOfStr (s : String) : ℕ :=
  s.toList.foldl (fun acc c => acc * 10 + (c.toNat - 48)) 0

/-- set_element_isotope: new_isos = [int(x) for x in self._isos], then
np.where(self._elems == element, isotope, new_isos), then set_isotopes.
np.where only selects elementwise between the given isotope and the parsed
integer of the prior label; the dtype coercion it performs (stringifying
the integers when isotope is a string) does not change how set_isotopes
resolves them, since set_isotopes stringifies every entry anyway. -/
def setElementIsotopeRun (table : NMRTable) (s : CalcState)
    (element : String) (isotope : IsoIn) : CalcState × Option String :=
  let new_isos := s.isos.map (fun x => IsoIn.num (pyIntOfStr x))
  let merged := (s.elems.zip new_isos).map
    (fun p => if p.1 = element then isotope else p.2)
  setIsotopesRun table s merged

/- Structure interpolation generator (linspace.py). -/

/-- The slice of an ase.Atoms object that linspaceGen touches: ordered
chemical symbols, positions, the unit cell, and the optional info['name']
metadata. -/
structure AtomsM where
  symbols : List String
  positions : List Vec3
  cell : Mat3
  name? : Option String
deriving DecidableEq, Repr

instance : Inhabited AtomsM := ⟨⟨[], [], default, none⟩⟩

/-- One linear blend pos0*(1-t) + pos1*t of two position rows. -/
def vblend (p q : Vec3) (t : ℚ) : Vec3 :=
  ⟨p.x * (1 - t) + q.x * t, p.y * (1 - t) + q.y * t, p.z * (1 - t) + q.z * t⟩

/-- The i-th entry of np.linspace(0, 1, steps): 0 for steps <= 1 (linspace
with one sample returns just the start point), else i/(steps-1). -/
def linT (steps i : ℕ) : ℚ :=
  if steps ≤ 1 then 0 else (i : ℚ) / ((steps : ℚ) - 1)

/-- linspaceGen, with the generator materialised as the finite list of the
structures it yields.  minPer is the oracle for
soprano.utils.minimum_periodic (only its first returned component is used
by the source). -/
def linspaceGen (minPer : List Vec3 → Mat3 → List Vec3)
    (s0 s1 : AtomsM) (steps : ℕ) (periodic : Bool) :
    Except String (List AtomsM) :=
  if s0.symbols ≠ s1.symbols then
    .error "The two structures passed to linspaceGen do not have the same chemical composition"
  else
    let pos0 := s0.positions
    let rootname := match s0.name? with | some n => n | none => "linspace"
    let pos1 :=
      if periodic then
        List.zipWith Vec3.add pos0
          (minPer (List.zipWith Vec3.sub s1.positions pos0) s0.cell)
      else s1.positions
    .ok ((List.range steps).map (fun i =>
      { s0 with
        positions := List.zipWith (fun a b => vblend a b (linT steps i)) pos0 pos1,
        name? := some (rootname ++ "_" ++ toString i) }))

/- spectrum_1d and its quadrupolar helpers. -/

/-- np.linspace(a, b, n): n evenly spaced samples from a to b inclusive;
a single sample is just a, zero samples is the empty array. -/
def linspaceQ (a b : ℚ) (n : ℕ) : List ℚ :=
  (List.range n).map (fun (i : ℕ) =>
    if n ≤ 1 then a else a + (b - a) * (i : ℚ) / ((n : ℚ) - 1))

/-- Reordering of one row of eigenvalues by ascending absolute value, as
done by the np.argsort(np.abs(efg_evals)) fancy indexing (an insertion sort
by absolute value; ties cannot arise in the claims settled below). -/
def sortAbs3 (v : Vec3) : Vec3 :=
  if |v.x| ≤ |v.y| then
    if |v.z| ≤ |v.x| then ⟨v.z, v.x, v.y⟩
    else if |v.z| ≤ |v.y| then ⟨v.x, v.z, v.y⟩
    else ⟨v.x, v.y, v.z⟩
  else
    if |v.z| ≤ |v.y| then ⟨v.z, v.y, v.x⟩
    else if |v.z| ≤ |v.x| then ⟨v.y, v.z, v.x⟩
    else ⟨v.y, v.x, v.z⟩

/-- The components of a Vec3 as a list (used to state permutation facts
about the eigenvalue reordering). -/
def Vec3.toL (v : Vec3) : List ℚ := [v.x, v.y, v.z]

/-- Vzz = efg_evals[:, -1]: the eigenvalue of largest absolute value. -/
def quadVzz (v : Vec3) : ℚ := (sortAbs3 v).z

/-- eta_q = (efg_evals[:, 0] - efg_evals[:, 1]) / Vzz: smallest-absolute
eigenvalue minus middle one, over Vzz. -/
def quadEta (v : Vec3) : ℚ :=
  ((sortAbs3 v).x - (sortAbs3 v).y) / quadVzz v

/-- chi = Vzz * Q * _VzzQ_Hz. -/
def quadChi (v : Vec3) (Q : ℚ) : ℚ := quadVzz v * Q * VzzQ_Hz

/-- Elementwise sum of two equal-length spectra (spec += ...). -/
def addSpec (a b : List ℚ) : List ℚ := List.zipWith (· + ·) a b

/-- The NMRCalculator.spectrum_1d method.  Oracle parameters: eigh models
np.linalg.eigh (eigenvalues with eigenvectors), pwdAvg models pwd_avg from
the powder module (frequency axis, per-orientation frequencies, weights,
triangulation).  The theorems below hold for every choice of the oracles.
The returned pair is (spec, freq_axis). -/
def spectrum_1d (table : NMRTable) (eigh : Mat3 → Vec3 × Mat3)
    (pwdAvg : List ℚ → List ℚ → List ℚ → List (ℕ × ℕ × ℕ) → List ℚ)
    (s : CalcState) (element : String)
    (min_freq max_freq : ℚ) (bins : ℕ) (freq_units : String) (effects : ℕ) :
    Except String (List ℚ × List ℚ) := do
  let pr ← el_iso table element
  let el := pr.1
  let iso := pr.2
  let rc ← (match getRec table el iso with
            | some rc => Except.ok rc
            | none => Except.error ("KeyError: no record " ++ iso ++ " for " ++ el))
  let larm := s.B * rc.gamma / (2 * pi_f * 1000000)
  let I := rc.I
  -- the u dict lookup; a missing key raises KeyError, caught and re-raised
  let u ← (if freq_units = "ppm" then Except.ok (1 : ℚ)
           else if freq_units = "MHz" then Except.ok (1000000 / larm)
           else Except.error "Invalid freq_units passed to spectrum_1d")
  let freq_axis := (linspaceQ min_freq max_freq bins).map (fun f => f * u)
  let a_inds := (List.range s.elems.length).filter
    (fun i => s.elems.getD i "" == el && s.isos.getD i "" == iso)
  -- chemical shift branch: select ms tensors and diagonalize
  let msTens? ← (if effects &&& NMRFlags.CS ≠ 0 then
                   match s.sample_ms with
                   | none => Except.error ("Impossible to compute chemical shift" ++
                                           " - sample has no shielding data")
                   | some arr => Except.ok (some (a_inds.map (fun i => arr.getD i default)))
                 else Except.ok none : Except String (Option (List Mat3)))
  let ms_ed := (msTens?.getD []).map eigh
  let ms_evals := ms_ed.map Prod.fst
  -- quadrupolar branch: select efg tensors, diagonalize, reorder
  let efgTens? ← (if effects &&& NMRFlags.Q ≠ 0 then
                    match s.sample_efg with
                    | none => Except.error ("Impossible to compute quadrupolar" ++
                                            " effects - sample has no EFG data")
                    | some arr => Except.ok (some (a_inds.map (fun i => arr.getD i default)))
                  else Except.ok none : Except String (Option (List Mat3)))
  let efg_ed := (efgTens?.getD []).map eigh
  -- the source also permutes the eigenvectors by the same argsort;
  -- they are never read after that, so the permutation is dropped
  let efg_sorted := efg_ed.map (fun p => sortAbs3 p.1)
  let VzzL := efg_sorted.map Vec3.z
  let etaL := efg_ed.map (fun p => quadEta p.1)
  let chiL := efg_ed.map (fun p => quadChi p.1 rc.Q)
  -- reference (zero if not given); bound but never used afterwards
  let ref := match (s.references.lookup el).bind
                    (fun m => m.lookup iso) with
             | some r => r
             | none => (0 : ℚ)
  -- peak array: atoms x int(2*I) one-quantum transitions
  let nT := (2 * I).floor.toNat
  let peaks0 : List (List ℚ) :=
    List.replicate a_inds.length (List.replicate nT (0 : ℚ))
  let peaks1 :=
    if effects &&& NMRFlags.CS_ISO ≠ 0 then
      List.zipWith (fun row ev =>
        row.map (fun p => p + (ev.x + ev.y + ev.z) / 3))
        peaks0 ms_evals
    else peaks0
  let peaks2 :=
    if effects &&& NMRFlags.Q_2_SHIFT ≠ 0 then
      let nu_l := larm * 1000000
      List.zipWith (fun row ec =>
        let eta := (ec : ℚ × ℚ).1
        let chi := ec.2
        let f : ℚ → ℚ := fun m =>
          -(chi / (4 * I * (2 * I - 1))) ^ 2 * m / nu_l *
            (-(0.2 : ℚ) * (I * (I + 1) - 3 * m ^ 2) *
              (3 + eta ^ 2)) * 2
        row.enum.map (fun ji =>
          ji.2 + (f (-I + (ji.1 : ℚ) + 1) - f (-I + (ji.1 : ℚ))) / larm))
        peaks1 (etaL.zip chiL)
    else peaks1
  let has_orient := effects &&& (NMRFlags.CS_ORIENT |||
    NMRFlags.Q_1_ORIENT ||| NMRFlags.Q_2_ORIENT)
  let spec0 : List ℚ := freq_axis.map (fun _ => (0 : ℚ))
  if has_orient ≠ 0 then
    match s.orients with
    | none => .error "AttributeError: _orients"
    | some ors =>
      -- peaks broadcast to atoms x transitions x orientations
      let peaks3 := peaks2.map (fun row =>
        row.map (fun p => List.replicate ors.dirs.length p))
      let peaks4 :=
        if effects &&& NMRFlags.CS_ORIENT ≠ 0 then
          let contrib : List (List ℚ) :=
            List.zipWith (fun t ev =>
              let tl := Mat3.sub t
                (Mat3.scaleId ((ev.x + ev.y + ev.z) / 3))
              ors.dirs.map (fun d => d.dot (tl.mulVec d)))
              (msTens?.getD []) ms_evals
          List.zipWith (fun row c =>
            row.map (fun pv => List.zipWith (· + ·) pv c))
            peaks3 contrib
        else peaks3
      let spec := peaks4.foldl (fun sp row =>
        row.foldl (fun sp ptrans =>
          addSpec sp (pwdAvg freq_axis ptrans ors.weights ors.tri))
          sp) spec0
      .ok (spec, freq_axis)
  else
    -- the loop guard "if has_orient" is false at every iteration,
    -- so each iteration leaves spec exactly as it was
    let spec := peaks2.foldl (fun sp row =>
      row.foldl (fun sp _ptrans => sp) sp) spec0
    .ok (spec, freq_axis)

/- Concrete example data used by the witness theorems: a small instance of
the abstract isotope table and calculator states built over it. -/

def exH : ElementData :=
  ⟨"1", some "2", [("1", ⟨267522128, 1/2, 0⟩), ("2", ⟨41066279, 1, 285783/100000⟩)]⟩

def exC : ElementData := ⟨"13", none, [("13", ⟨67282840, 1/2, 0⟩)]⟩

def exNa : ElementData := ⟨"23", some "23", [("23", ⟨70808493, 3/2, 104/1000⟩)]⟩

def exTable : NMRTable := [("H", exH), ("C", exC), ("Na", exNa)]

def exCalc : CalcState := ⟨["H", "C"], ["1", "13"], 1, [], none, none, none⟩

def exCalcH : CalcState := ⟨["H"], ["1"], 1, [], none, some [default], none⟩

def exA0 : AtomsM := ⟨["H"], [⟨0, 0, 0⟩], default, some "root"⟩

def exA1 : AtomsM := ⟨["H"], [⟨1, 2, 3⟩], default, none⟩

/- Helper lemmas shared by the claim theorems. -/

/-- A fold whose step function ignores the list element returns its initial
accumulator. -/
theorem foldl_keep {α β : Type} : ∀ (l : List α) (s : β),
    l.foldl (fun b _ => b) s = s
  | [], _ => rfl
  | _ :: l, s => foldl_keep l s

theorem perm3_rot {a b c : ℚ} : [c, a, b].Perm [a, b, c] :=
  (List.Perm.swap a c [b]).trans (List.Perm.cons a (List.Perm.swap b c []))

theorem perm3_mid {a b c : ℚ} : [a, c, b].Perm [a, b, c] :=
  List.Perm.cons a (List.Perm.swap b c [])

theorem perm3_rev {a b c : ℚ} : [c, b, a].Perm [a, b, c] :=
  (List.Perm.swap b c [a]).trans
    ((List.Perm.cons b (List.Perm.swap a c [])).trans (List.Perm.swap a b [c]))

theorem perm3_rot2 {a b c : ℚ} : [b, c, a].Perm [a, b, c] :=
  (List.Perm.cons b (List.Perm.swap a c [])).trans (List.Perm.swap a b [c])

theorem perm3_swap {a b c : ℚ} : [b, a, c].Perm [a, b, c] :=
  List.Perm.swap a b [c]

/-- The eigenvalue reordering is a permutation of the input row. -/
theorem sortAbs3_perm (v : Vec3) : (sortAbs3 v).toL.Perm v.toL := by
  unfold sortAbs3 Vec3.toL
  split_ifs <;> simp only []
  · exact perm3_rot
  · exact perm3_mid
  · exact List.Perm.refl _
  · exact perm3_rev
  · exact perm3_rot2
  · exact perm3_swap

/-- The eigenvalue reordering is ascending in absolute value. -/
theorem sortAbs3_sorted (v : Vec3) :
    |(sortAbs3 v).x| ≤ |(sortAbs3 v).y| ∧ |(sortAbs3 v).y| ≤ |(sortAbs3 v).z| := by
  unfold sortAbs3
  split_ifs <;> constructor <;> simp only [] <;> linarith

/-- The last entry of the reordering has the largest absolute value. -/
theorem sortAbs3_max (v : Vec3) :
    |v.x| ≤ |(sortAbs3 v).z| ∧ |v.y| ≤ |(sortAbs3 v).z| ∧ |v.z| ≤ |(sortAbs3 v).z| := by
  unfold sortAbs3
  split_ifs <;> refine ⟨?_, ?_, ?_⟩ <;> simp only [] <;> linarith

/- Claim theorems. -/

/-- C5: the NMR flag constants have the fixed literal values CS_ISO=1,
CS_ORIENT=2, CS=3, Q_1_ORIENT=4, Q_2_SHIFT=8, Q_2_ORIENT=16, Q_2=24, Q=28,
ALL=31, and every composite equals the bitwise union of its constituents. -/
theorem C5_nmr_flags :
    NMRFlags.CS_ISO = 1 ∧ NMRFlags.CS_ORIENT = 2 ∧ NMRFlags.CS = 3 ∧
    NMRFlags.Q_1_ORIENT = 4 ∧ NMRFlags.Q_2_SHIFT = 8 ∧
    NMRFlags.Q_2_ORIENT = 16 ∧ NMRFlags.Q_2 = 24 ∧ NMRFlags.Q = 28 ∧
    NMRFlags.ALL = 31 ∧
    NMRFlags.CS = NMRFlags.CS_ISO ||| NMRFlags.CS_ORIENT ∧
    NMRFlags.Q_2 = NMRFlags.Q_2_SHIFT ||| NMRFlags.Q_2_ORIENT ∧
    NMRFlags.Q = NMRFlags.Q_1_ORIENT ||| NMRFlags.Q_2 ∧
    NMRFlags.ALL = NMRFlags.CS ||| NMRFlags.Q := by decide

/-- C2 (amended): the efg eigenvalue row is reordered by ascending absolute
value (a permutation of the input), Vzz is the entry of largest absolute
magnitude, the asymmetry equals (lambda_min - lambda_mid)/Vzz — smallest
absolute-value eigenvalue minus the middle one, NOT the other way round —
and the quadrupolar coupling is chi = Vzz*Q*k with
k = 1e-31*(m_e^3*c^4*alpha^4)/(hbar^3*2*pi). -/
theorem C2_quad_parameters (v : Vec3) (Qm : ℚ) :
    (sortAbs3 v).toL.Perm v.toL ∧
    |(sortAbs3 v).x| ≤ |(sortAbs3 v).y| ∧
    |(sortAbs3 v).y| ≤ |(sortAbs3 v).z| ∧
    quadVzz v = (sortAbs3 v).z ∧
    |v.x| ≤ |quadVzz v| ∧ |v.y| ≤ |quadVzz v| ∧ |v.z| ≤ |quadVzz v| ∧
    quadEta v = ((sortAbs3 v).x - (sortAbs3 v).y) / quadVzz v ∧
    quadChi v Qm = quadVzz v * Qm *
      (1.0e-31 * (m_e ^ 3 * c_light ^ 4 * alpha_f ^ 4) /
        (hbar_f ^ 3 * 2 * pi_f)) :=
  ⟨sortAbs3_perm v, (sortAbs3_sorted v).1, (sortAbs3_sorted v).2, rfl,
   (sortAbs3_max v).1, (sortAbs3_max v).2.1, (sortAbs3_max v).2.2, rfl, rfl⟩

/-- C2 counterexample: for the eigenvalue row (-4, 1, 2) (ascending order,
as np.linalg.eigh returns it), the absolute-value ordering is (1, 2, -4),
so Vzz = -4; the code computes eta_q = (1 - 2)/(-4) = 1/4, while the
claimed formula (lambda_mid - lambda_min)/Vzz gives (2 - 1)/(-4) = -1/4. -/
theorem C2_sign_counterexample :
    quadEta ⟨-4, 1, 2⟩ ≠
      ((sortAbs3 ⟨-4, 1, 2⟩).y - (sortAbs3 ⟨-4, 1, 2⟩).x) / quadVzz ⟨-4, 1, 2⟩ ∧
    quadEta ⟨-4, 1, 2⟩ = 1 / 4 ∧
    ((sortAbs3 ⟨-4, 1, 2⟩).y - (sortAbs3 ⟨-4, 1, 2⟩).x) / quadVzz ⟨-4, 1, 2⟩ =
      -(1 / 4) := by with_unfolding_all decide

/-- C6: interpolation fails whenever the two structures' ordered per-atom
chemical-symbol sequences differ in any position — the check is on the
ordered sequences (so it also fires when the multiset of elements is
identical), for every steps value and both periodic modes. -/
theorem C6_composition_mismatch (minPer : List Vec3 → Mat3 → List Vec3)
    (s0 s1 : AtomsM) (steps : ℕ) (periodic : Bool)
    (h : s0.symbols ≠ s1.symbols) :
    linspaceGen minPer s0 s1 steps periodic =
      .error "The two structures passed to linspaceGen do not have the same chemical composition" := by
  unfold linspaceGen
  rw [if_pos h]

/-- C6 witness: two structures with the same element multiset but a
different order are rejected. -/
theorem C6_witness :
    ((⟨["H", "C"], [], default, none⟩ : AtomsM).symbols ≠
       (⟨["C", "H"], [], default, none⟩ : AtomsM).symbols ∧
     Multiset.ofList (⟨["H", "C"], [], default, none⟩ : AtomsM).symbols =
       Multiset.ofList (⟨["C", "H"], [], default, none⟩ : AtomsM).symbols) ∧
    linspaceGen (fun v _ => v) ⟨["H", "C"], [], default, none⟩
        ⟨["C", "H"], [], default, none⟩ 10 false =
      .error "The two structures passed to linspaceGen do not have the same chemical composition" :=
  ⟨⟨by decide, by decide⟩,
   C6_composition_mismatch (fun v _ => v) _ _ 10 false (by decide)⟩

/-- C7: the isotope symbol parser yields ("H", "1") on "1H"; on "Na" it
yields "Na" with the table's default iso entry for Na, as a string; a
symbol whose letter part is not in the table fails with the invalid-element
error; and a symbol whose resolved isotope has no entry under that element
fails with the no-data error. -/
theorem C7_el_iso_parse (table : NMRTable) (hd nd : ElementData)
    (hH : table.lookup "H" = some hd)
    (h1 : (hd.recs.lookup "1").isSome = true)
    (hNa : table.lookup "Na" = some nd)
    (hdef : hasKey nd nd.iso = true) :
    el_iso table "1H" = .ok ("H", "1") ∧
    el_iso table "Na" = .ok ("Na", nd.iso) ∧
    (∀ sym digits letters, reFindall sym = [(digits, letters)] →
      table.lookup letters = none →
      el_iso table sym = .error "Invalid element symbol") ∧
    (∀ sym digits letters d, reFindall sym = [(digits, letters)] →
      table.lookup letters = some d →
      hasKey d (if digits = "" then d.iso else digits) = false →
      el_iso table sym =
        .error ("No data on isotope " ++ (if digits = "" then d.iso else digits) ++
                " for element " ++ letters)) := by
  refine ⟨?_, ?_, ?_, ?_⟩
  · unfold el_iso
    rw [show reFindall "1H" = [("1", "H")] from rfl]
    dsimp only
    rw [hH]
    have hk : hasKey hd "1" = true := by
      unfold hasKey
      rw [h1]
      simp
    simp [hk]
  · unfold el_iso
    rw [show reFindall "Na" = [("", "Na")] from rfl]
    dsimp only
    rw [hNa]
    simp [hdef]
  · intro sym digits letters hf hl
    unfold el_iso
    rw [hf]
    dsimp only
    rw [hl]
  · intro sym digits letters d hf hl hk
    unfold el_iso
    rw [hf]
    dsimp only
    rw [hl]
    simp [hk]

/-- C7 witness: the four parser behaviors on the concrete example table. -/
theorem C7_witness :
    el_iso exTable "1H" = .ok ("H", "1") ∧
    el_iso exTable "Na" = .ok ("Na", "23") ∧
    el_iso exTable "Xx" = .error "Invalid element symbol" ∧
    el_iso exTable "99H" = .error "No data on isotope 99 for element H" := by
  have h := C7_el_iso_parse exTable exH exNa rfl rfl rfl (by decide)
  exact ⟨h.1, h.2.1, h.2.2.1 "Xx" "" "Xx" rfl rfl,
         h.2.2.2 "99H" "99" "H" exH rfl rfl (by decide)⟩

theorem vblend_zero (a b : Vec3) : vblend a b 0 = a := by
  cases a
  simp [vblend]

theorem vblend_one (a b : Vec3) : vblend a b 1 = b := by
  cases b
  simp [vblend]

theorem zipWith_left (p q : List Vec3) (h : p.length = q.length) :
    List.zipWith (fun a _ => a) p q = p := by
  induction p generalizing q with
  | nil => simp
  | cons a p ih =>
    cases q with
    | nil => simp at h
    | cons b q =>
      simp only [List.zipWith_cons_cons]
      rw [ih q (by simpa using h)]

theorem zipWith_right (p q : List Vec3) (h : p.length = q.length) :
    List.zipWith (fun _ b => b) p q = q := by
  induction p generalizing q with
  | nil => cases q <;> simp_all
  | cons a p ih =>
    cases q with
    | nil => simp at h
    | cons b q =>
      simp only [List.zipWith_cons_cons]
      rw [ih q (by simpa using h)]

theorem zipWith_vblend_zero (p q : List Vec3) (h : p.length = q.length) :
    List.zipWith (fun a b => vblend a b 0) p q = p := by
  have hf : (fun a b => vblend a b 0) = (fun (a : Vec3) (_ : Vec3) => a) :=
    funext fun a => funext fun b => vblend_zero a b
  rw [hf]
  exact zipWith_left p q h

theorem zipWith_vblend_one (p q : List Vec3) (h : p.length = q.length) :
    List.zipWith (fun a b => vblend a b 1) p q = q := by
  have hf : (fun a b => vblend a b 1) = (fun (_ : Vec3) (b : Vec3) => b) :=
    funext fun a => funext fun b => vblend_one a b
  rw [hf]
  exact zipWith_right p q h

theorem getD_map_range {α : Type} (n i : ℕ) (f : ℕ → α) (d : α) (h : i < n) :
    ((List.range n).map f).getD i d = f i := by
  rw [List.getD_eq_getElem?_getD, List.getElem?_map, List.getElem?_range h]
  rfl

theorem linT_eq (steps i : ℕ) (h : 2 ≤ steps) :
    linT steps i = (i : ℚ) / ((steps : ℚ) - 1) := by
  unfold linT
  rw [if_neg (by omega)]

theorem linT_zero (steps : ℕ) (h : 2 ≤ steps) : linT steps 0 = 0 := by
  rw [linT_eq steps 0 h]
  simp

theorem linT_last (steps : ℕ) (h : 2 ≤ steps) : linT steps (steps - 1) = 1 := by
  rw [linT_eq steps (steps - 1) h]
  have h1 : ((steps - 1 : ℕ) : ℚ) = (steps : ℚ) - 1 := by
    have : (1 : ℕ) ≤ steps := by omega
    push_cast [this]
    ring
  rw [h1]
  have h2 : (2 : ℚ) ≤ (steps : ℚ) := by exact_mod_cast h
  exact div_self (by linarith)

/-- C3: with matching ordered symbol sequences and steps >= 2,
non-periodic interpolation yields exactly steps structures; index i is the
linear blend pos0*(1-t) + pos1*t with t = i/(steps-1) and carries the name
rootName_i (rootName being structure A's stored name, else "linspace");
index 0 is exactly structure A's positions and index steps-1 exactly
structure B's. -/
theorem C3_linspace (minPer : List Vec3 → Mat3 → List Vec3)
    (s0 s1 : AtomsM) (steps : ℕ) (h2 : 2 ≤ steps)
    (hsym : s0.symbols = s1.symbols)
    (hlen : s0.positions.length = s1.positions.length) :
    ∃ out, linspaceGen minPer s0 s1 steps false = .ok out ∧
      out.length = steps ∧
      (∀ i, i < steps →
        (out.getD i default).positions =
          List.zipWith (fun a b => vblend a b ((i : ℚ) / ((steps : ℚ) - 1)))
            s0.positions s1.positions ∧
        (out.getD i default).name? =
          some ((match s0.name? with | some n => n | none => "linspace") ++
                "_" ++ toString i)) ∧
      (out.getD 0 default).positions = s0.positions ∧
      (out.getD (steps - 1) default).positions = s1.positions := by
  have hne : ¬ s0.symbols ≠ s1.symbols := fun hcon => hcon hsym
  have hrun : linspaceGen minPer s0 s1 steps false =
      .ok ((List.range steps).map (fun i =>
        { s0 with
          positions := List.zipWith (fun a b => vblend a b (linT steps i))
            s0.positions s1.positions,
          name? := some ((match s0.name? with | some n => n | none => "linspace") ++
                         "_" ++ toString i) })) := by
    unfold linspaceGen
    rw [if_neg hne]
    rfl
  refine ⟨_, hrun, by simp, ?_, ?_, ?_⟩
  · intro i hi
    rw [getD_map_range steps i _ default hi]
    constructor
    · simp only [linT_eq steps i h2]
    · rfl
  · rw [getD_map_range steps 0 _ default (by omega)]
    simp only [linT_zero steps h2]
    exact zipWith_vblend_zero s0.positions s1.positions hlen
  · rw [getD_map_range steps (steps - 1) _ default (by omega)]
    simp only [linT_last steps h2]
    exact zipWith_vblend_one s0.positions s1.positions hlen

/-- C3 witness: a concrete three-step interpolation between two one-atom
structures. -/
theorem C3_witness :
    (2 ≤ 3 ∧ exA0.symbols = exA1.symbols ∧
      exA0.positions.length = exA1.positions.length) ∧
    (∃ out, linspaceGen (fun v _ => v) exA0 exA1 3 false = .ok out ∧
      out.length = 3 ∧ (out.getD 0 default).positions = exA0.positions ∧
      (out.getD 2 default).positions = exA1.positions) := by
  refine ⟨⟨by decide, by decide, by decide⟩, ?_⟩
  obtain ⟨out, h1, h2, _, h4, h5⟩ :=
    C3_linspace (fun v _ => v) exA0 exA1 3 (by decide) (by decide) (by decide)
  exact ⟨out, h1, h2, h4, h5⟩

/-- C10: with matching ordered symbol sequences, steps=1 yields exactly one
structure, whose positions are exactly structure A's (the parameter is
t = 0, np.linspace(0, 1, 1) being the one-point array [0]), named
rootName_0. -/
theorem C10_linspace_single (minPer : List Vec3 → Mat3 → List Vec3)
    (s0 s1 : AtomsM) (hsym : s0.symbols = s1.symbols)
    (hlen : s0.positions.length = s1.positions.length) :
    ∃ out, linspaceGen minPer s0 s1 1 false = .ok out ∧
      out.length = 1 ∧
      (out.getD 0 default).positions = s0.positions ∧
      (out.getD 0 default).name? =
        some ((match s0.name? with | some n => n | none => "linspace") ++
              "_" ++ toString 0) := by
  have hne : ¬ s0.symbols ≠ s1.symbols := fun hcon => hcon hsym
  have hrun : linspaceGen minPer s0 s1 1 false =
      .ok ((List.range 1).map (fun i =>
        { s0 with
          positions := List.zipWith (fun a b => vblend a b (linT 1 i))
            s0.positions s1.positions,
          name? := some ((match s0.name? with | some n => n | none => "linspace") ++
                         "_" ++ toString i) })) := by
    unfold linspaceGen
    rw [if_neg hne]
    rfl
  refine ⟨_, hrun, by simp, ?_, ?_⟩
  · rw [getD_map_range 1 0 _ default (by omega)]
    have h0 : linT 1 0 = 0 := rfl
    simp only [h0]
    exact zipWith_vblend_zero s0.positions s1.positions hlen
  · rw [getD_map_range 1 0 _ default (by omega)]

/-- C10 witness: a concrete one-step interpolation. -/
theorem C10_witness :
    (exA0.symbols = exA1.symbols ∧
      exA0.positions.length = exA1.positions.length) ∧
    (∃ out, linspaceGen (fun v _ => v) exA0 exA1 1 false = .ok out ∧
      out.length = 1 ∧ (out.getD 0 default).positions = exA0.positions) := by
  refine ⟨⟨by decide, by decide⟩, ?_⟩
  obtain ⟨out, h1, h2, h3, _⟩ :=
    C10_linspace_single (fun v _ => v) exA0 exA1 (by decide) (by decide)
  exact ⟨out, h1, h2, h3⟩

/-- C4: set_isotopes with an array whose length differs from the atom count
fails with the length error, and on every failure (length mismatch, unknown
isotope, element mismatch, ...) the stored isotope assignment — and the rest
of the state — is exactly what it was before the call. -/
theorem C4_set_isotopes_atomic (table : NMRTable) :
    (∀ (s : CalcState) (isotopes : List IsoIn),
      isotopes.length ≠ s.elems.length →
      setIsotopesRun table s isotopes =
        (s, some "isotopes array should be as long as the atoms in sample")) ∧
    (∀ (s : CalcState) (isotopes : List IsoIn) (st : CalcState) (e : String),
      setIsotopesRun table s isotopes = (st, some e) → st = s) := by
  constructor
  · intro s isotopes h
    unfold setIsotopesRun
    rw [if_pos h]
  · intro s isotopes st e h
    unfold setIsotopesRun at h
    split at h
    · exact (Prod.mk.injEq _ _ _ _ ▸ h).1.symm
    · split at h
      · exact (Prod.mk.injEq _ _ _ _ ▸ h).1.symm
      · exact absurd (Prod.mk.injEq _ _ _ _ ▸ h).2 (by simp)

/-- C4 witness: a one-entry array against a two-atom sample fails with the
length error and leaves the state untouched. -/
theorem C4_witness :
    setIsotopesRun exTable exCalc [IsoIn.noneI] =
      (exCalc, some "isotopes array should be as long as the atoms in sample") ∧
    exCalc = exCalc :=
  ⟨(C4_set_isotopes_atomic exTable).1 exCalc [IsoIn.noneI] (by decide),
   (C4_set_isotopes_atomic exTable).2 exCalc [IsoIn.noneI] exCalc
     "isotopes array should be as long as the atoms in sample" (by decide)⟩

/-- A successful cleanIsos run resolves every entry pointwise. -/
theorem cleanIsos_ok_getD (table : NMRTable) :
    ∀ (es : List String) (is' : List IsoIn) (out : List String),
      es.length = is'.length →
      cleanIsos table es is' = .ok out →
      out.length = es.length ∧
      ∀ i, i < es.length →
        resolveIso table (es.getD i "") (is'.getD i IsoIn.noneI) =
          .ok (out.getD i "") := by
  intro es
  induction es with
  | nil =>
    intro is' out hlen hok
    cases is' with
    | nil =>
      unfold cleanIsos at hok
      cases hok
      exact ⟨rfl, fun i hi => absurd hi (by simp)⟩
    | cons a b => simp at hlen
  | cons e es ih =>
    intro is' out hlen hok
    cases is' with
    | nil => simp at hlen
    | cons i0 is0 =>
      unfold cleanIsos at hok
      cases hres : resolveIso table e i0 with
      | error err =>
        rw [hres] at hok
        simp at hok
      | ok nm =>
        rw [hres] at hok
        cases hclean : cleanIsos table es is0 with
        | error err =>
          rw [hclean] at hok
          simp at hok
        | ok rest =>
          rw [hclean] at hok
          simp only [Except.ok.injEq] at hok
          subst hok
          obtain ⟨ihl, ihg⟩ := ih is0 rest (by simpa using hlen) hclean
          refine ⟨by simp [ihl], ?_⟩
          intro i hi
          cases i with
          | zero =>
            simpa using hres
          | succ n =>
            simp only [List.getD_cons_succ]
            exact ihg n (by simpa using hi)

/-- getD of the merged entry list built by set_element_isotope. -/
theorem zip_map_getD (f : String × IsoIn → IsoIn) (g : String → IsoIn) :
    ∀ (es xs : List String) (i : ℕ), i < es.length → xs.length = es.length →
      ((es.zip (xs.map g)).map f).getD i IsoIn.noneI =
        f (es.getD i "", g (xs.getD i ""))
  | e :: es, x :: xs, 0, _, _ => rfl
  | e :: es, x :: xs, i + 1, hi, hl => by
    simp only [List.map_cons, List.zip_cons_cons, List.getD_cons_succ]
    exact zip_map_getD f g es xs i (by simpa using hi) (by simpa using hl)
  | [], _, i, hi, _ => absurd hi (by simp)
  | e :: es, [], i, hi, hl => by simp at hl

/-- A stored digit-string label that round-trips through int() and exists in
the table resolves to itself. -/
theorem resolveIso_digit_self (table : NMRTable) (e x : String)
    (d : ElementData) (h1 : startsDigit x = true)
    (h2 : toString (pyIntOfStr x) = x) (h3 : table.lookup e = some d)
    (h4 : hasKey d x = true) :
    resolveIso table e (IsoIn.num (pyIntOfStr x)) = .ok x := by
  unfold resolveIso
  simp only [pyStr]
  rw [h2]
  simp [h1, h3, h4]

/-- C9: after a successful set_element_isotope(element, isotope) call, every
atom of that element carries the resolution of the requested isotope under
the set_isotopes rule, and every atom of a different element keeps exactly
the isotope label it had before the call.  The validity hypothesis states
the standing invariant of stored assignments: each label is a canonical
digit string present in the table for its atom's element. -/
theorem C9_element_isotope_frame (table : NMRTable) (s : CalcState)
    (element : String) (isotope : IsoIn) (s' : CalcState)
    (hlen : s.isos.length = s.elems.length)
    (hvalid : ∀ i, i < s.elems.length → s.elems.getD i "" ≠ element →
      startsDigit (s.isos.getD i "") = true ∧
      toString (pyIntOfStr (s.isos.getD i "")) = s.isos.getD i "" ∧
      ∃ d, table.lookup (s.elems.getD i "") = some d ∧
        hasKey d (s.isos.getD i "") = true)
    (hok : setElementIsotopeRun table s element isotope = (s', none)) :
    s'.elems = s.elems ∧ s'.isos.length = s.elems.length ∧
    ∀ i, i < s.elems.length →
      (s.elems.getD i "" = element →
        Except.ok (s'.isos.getD i "") = resolveIso table element isotope) ∧
      (s.elems.getD i "" ≠ element →
        s'.isos.getD i "" = s.isos.getD i "") := by
  simp only [setElementIsotopeRun, setIsotopesRun] at hok
  have hmlen : ((s.elems.zip (s.isos.map fun x => IsoIn.num (pyIntOfStr x))).map
      (fun p => if p.1 = element then isotope else p.2)).length =
      s.elems.length := by
    simp [List.length_zip, hlen]
  rw [if_neg (fun hne => hne hmlen)] at hok
  cases hcl : cleanIsos table s.elems
      ((s.elems.zip (s.isos.map fun x => IsoIn.num (pyIntOfStr x))).map
        (fun p => if p.1 = element then isotope else p.2)) with
  | error err =>
    rw [hcl] at hok
    simp at hok
  | ok clean =>
    rw [hcl] at hok
    simp only [Prod.mk.injEq] at hok
    obtain ⟨hs', -⟩ := hok
    subst hs'
    obtain ⟨hl, hg⟩ := cleanIsos_ok_getD table s.elems _ _ hmlen.symm hcl
    refine ⟨rfl, hl, ?_⟩
    intro i hi
    have hm := hg i hi
    rw [zip_map_getD _ _ s.elems s.isos i hi hlen] at hm
    constructor
    · intro heq
      rw [heq, if_pos rfl] at hm
      exact hm.symm
    · intro hne
      rw [if_neg hne] at hm
      obtain ⟨hd1, hd2, d, hd3, hd4⟩ := hvalid i hi hne
      rw [resolveIso_digit_self table _ _ d hd1 hd2 hd3 hd4] at hm
      simp only [Except.ok.injEq] at hm
      exact hm.symm

/-- C9 witness: on a two-atom H,C sample with isotopes 1H and 13C, setting
every H to isotope 2 rewrites the H atom and leaves the C atom's label
untouched. -/
theorem C9_witness :
    (exCalc.isos.length = exCalc.elems.length ∧
     setElementIsotopeRun exTable exCalc "H" (IsoIn.num 2) =
       (⟨["H", "C"], ["2", "13"], 1, [], none, none, none⟩, none)) ∧
    ((⟨["H", "C"], ["2", "13"], 1, [], none, none, none⟩ : CalcState).elems =
       exCalc.elems ∧
     (⟨["H", "C"], ["2", "13"], 1, [], none, none, none⟩ : CalcState).isos.length =
       exCalc.elems.length ∧
     ∀ i, i < exCalc.elems.length →
       (exCalc.elems.getD i "" = "H" →
         Except.ok ((⟨["H", "C"], ["2", "13"], 1, [], none, none, none⟩ :
           CalcState).isos.getD i "") =
           resolveIso exTable "H" (IsoIn.num 2)) ∧
       (exCalc.elems.getD i "" ≠ "H" →
         (⟨["H", "C"], ["2", "13"], 1, [], none, none, none⟩ :
           CalcState).isos.getD i "" = exCalc.isos.getD i "")) :=
  ⟨⟨by decide, by with_unfolding_all decide⟩,
   C9_element_isotope_frame exTable exCalc "H" (IsoIn.num 2) _
     (by decide) (by with_unfolding_all decide) (by with_unfolding_all decide)⟩

/-- Inversion for a successful Except bind. -/
theorem except_bind_ok {ε α β : Type} {x : Except ε α} {f : α → Except ε β}
    {b : β} (h : x >>= f = .ok b) : ∃ a, x = .ok a ∧ f a = .ok b := by
  cases x with
  | error e => simp [Bind.bind, Except.bind] at h
  | ok a => exact ⟨a, rfl, by simpa [Bind.bind, Except.bind] using h⟩

/-- The accumulation loop with a constant-false guard keeps the spectrum. -/
theorem double_foldl_keep (P : List (List ℚ)) (s0 : List ℚ) :
    P.foldl (fun sp row => row.foldl (fun sp _ => sp) sp) s0 = s0 := by
  induction P generalizing s0 with
  | nil => rfl
  | cons r P ih =>
    simp only [List.foldl_cons]
    rw [foldl_keep r, ih]

/-- C1: for every calculator state, element and oracle choice, a successful
spectrum_1d call whose effects word has no orientation-dependent bit set
(CS_ORIENT, Q_1_ORIENT, Q_2_ORIENT) — in particular effects = CS_ISO alone —
returns an all-zero intensity array over the requested bins: the per-atom,
per-transition peak values are computed but never deposited into the
output. -/
theorem C1_no_orient_zero_spectrum (table : NMRTable)
    (eigh : Mat3 → Vec3 × Mat3)
    (pwdAvg : List ℚ → List ℚ → List ℚ → List (ℕ × ℕ × ℕ) → List ℚ)
    (s : CalcState) (element : String) (min_freq max_freq : ℚ) (bins : ℕ)
    (freq_units : String) (effects : ℕ)
    (h : effects &&& (NMRFlags.CS_ORIENT ||| NMRFlags.Q_1_ORIENT |||
      NMRFlags.Q_2_ORIENT) = 0)
    (spec ax : List ℚ)
    (hok : spectrum_1d table eigh pwdAvg s element min_freq max_freq bins
      freq_units effects = .ok (spec, ax)) :
    spec = List.replicate bins 0 := by
  unfold spectrum_1d at hok
  obtain ⟨pr, h1, hok⟩ := except_bind_ok hok
  obtain ⟨rc, h2, hok⟩ := except_bind_ok hok
  obtain ⟨u, h3, hok⟩ := except_bind_ok hok
  obtain ⟨msT, h4, hok⟩ := except_bind_ok hok
  obtain ⟨efgT, h5, hok⟩ := except_bind_ok hok
  simp only [h] at hok
  rw [if_neg (by simp : ¬ ((0 : ℕ) ≠ 0))] at hok
  simp only [Except.ok.injEq, Prod.mk.injEq] at hok
  obtain ⟨hspec, hax⟩ := hok
  subst hspec
  rw [double_foldl_keep, List.map_const']
  have hlen : ((linspaceQ min_freq max_freq bins).map (fun f => f * u)).length =
      bins := by
    rw [List.length_map]
    unfold linspaceQ
    rw [List.length_map, List.length_range]
  rw [hlen]

/-- C1 witness: a CS_ISO-only spectrum over three bins on a one-atom
hydrogen sample with shielding data comes back as [0, 0, 0]. -/
theorem C1_witness :
    ((1 : ℕ) &&& (NMRFlags.CS_ORIENT ||| NMRFlags.Q_1_ORIENT |||
      NMRFlags.Q_2_ORIENT) = 0) ∧
    ([0, 0, 0] : List ℚ) = List.replicate 3 0 :=
  ⟨by decide,
   C1_no_orient_zero_spectrum exTable (fun _ => (⟨0, 0, 0⟩, default))
     (fun fa _ _ _ => fa) exCalcH "1H" (-50) 50 3 "ppm" 1 (by decide)
     [0, 0, 0] [-50, 0, 50] (by with_unfolding_all rfl)⟩

/-- C8: the spectrum returned by spectrum_1d does not depend on the stored
reference table: two calculators identical except for their ppm reference
tables produce identical results (intensity and frequency axis alike) for
the same arguments — the reference value is looked up but never applied. -/
theorem C8_reference_independence (table : NMRTable)
    (eigh : Mat3 → Vec3 × Mat3)
    (pwdAvg : List ℚ → List ℚ → List ℚ → List (ℕ × ℕ × ℕ) → List ℚ)
    (s : CalcState) (r1 r2 : List (String × List (String × ℚ)))
    (element : String) (min_freq max_freq : ℚ) (bins : ℕ)
    (freq_units : String) (effects : ℕ) :
    spectrum_1d table eigh pwdAvg { s with references := r1 } element
      min_freq max_freq bins freq_units effects =
    spectrum_1d table eigh pwdAvg { s with references := r2 } element
      min_freq max_freq bins freq_units effects := rfl

end Soprano
